import Mathlib

/-!
Verification of the Fabric Addressing & Config-Context Planner of the
`frey` repository, a shallow embedding of the pure planning core of
`scripts/netbox-helpers/seed-netbox-from-clab.py`: role classification,
device numbering (router IDs, VTEP loopbacks, ASNs, point-to-point /31
subnets), the adjacency / BFS topology-depth computation, per-link
classification, and the per-device BGP/EVPN config-context documents.

NetBox API calls (get-or-create of manufacturers, devices, interfaces,
IPs, VLANs, cables) are external collaborators: the embedding models the
data each call would receive, not the HTTP traffic.
-/

namespace Frey

/-! ### Config-context constants (module level constants of the script) -/

def LOOPBACK_BASE : String := "10.255.255."
def VTEP_LOOPBACK_BASE : String := "10.255.254."
def SPINE_LOOPBACK_START : Nat := 1
def LEAF_LOOPBACK_START : Nat := 101
def BASE_ASN_SPINE : Nat := 65000
def BASE_ASN_LEAF : Nat := 65100
def P2P_LINK_BASE : String := "10.0."

def DEFAULT_VLANS : List (Nat × String) :=
  [(10, "VLAN10"), (20, "VLAN20"), (30, "VLAN30")]

/-! ### Role classification and device numbering -/

/-- Python `str.lower()` (ASCII device names), evaluated on the
character list so the kernel can reduce it. -/
def py_lower (s : String) : String := ⟨s.data.map Char.toLower⟩

/-- Python `str.startswith(pre)`. -/
def py_startswith (s pre : String) : Bool := pre.data.isPrefixOf s.data

/-- Python `'/' in s` (substring test for a single character). -/
def py_contains (s : String) (c : Char) : Bool := s.data.contains c

/-- `determine_device_role` (script lines 244-254): case-insensitive
hostname prefix match. -/
def determine_device_role (device_name : String) : String :=
  let device_lower := py_lower device_name
  if py_startswith device_lower "spine" then "spine"
  else if py_startswith device_lower "leaf" then "leaf"
  else if py_startswith device_lower "border" then "border"
  else "unknown"

/-- `extract_device_number` (lines 256-261): the maximal trailing run of
decimal digits of the name, read as a number; `0` when there is none
(mirrors the regex search for trailing digits followed by `int`). -/
def extract_device_number (device_name : String) : Nat :=
  let digits := (device_name.data.reverse.takeWhile Char.isDigit).reverse
  digits.foldl (fun acc c => acc * 10 + (c.toNat - '0'.toNat)) 0

/-- `generate_router_id` (lines 263-274). -/
def generate_router_id (device_name : String) (role : String) : String :=
  let device_num := extract_device_number device_name
  let octet :=
    if role == "spine" then SPINE_LOOPBACK_START + device_num - 1
    else if role == "leaf" then LEAF_LOOPBACK_START + device_num - 1
    else 100 + device_num
  LOOPBACK_BASE ++ toString octet

/-- `generate_vtep_ip` (lines 276-280). -/
def generate_vtep_ip (device_name : String) : String :=
  let device_num := extract_device_number device_name
  let octet := LEAF_LOOPBACK_START + device_num - 1
  VTEP_LOOPBACK_BASE ++ toString octet

/-- `generate_asn` (lines 282-290). -/
def generate_asn (device_name : String) (role : String) : Nat :=
  if role == "spine" then BASE_ASN_SPINE
  else if role == "leaf" then BASE_ASN_LEAF + extract_device_number device_name - 1
  else BASE_ASN_SPINE

/-- `calculate_p2p_ips` (lines 292-314): returns `(local_ip, peer_ip)`. -/
def calculate_p2p_ips (link_index : Nat) (device_type : String) : String × String :=
  if device_type == "leaf" then
    (P2P_LINK_BASE ++ toString link_index ++ ".1/31",
     P2P_LINK_BASE ++ toString link_index ++ ".0")
  else
    (P2P_LINK_BASE ++ toString link_index ++ ".0/31",
     P2P_LINK_BASE ++ toString link_index ++ ".1")

/-! ### Small string facts used to separate the two loopback bases -/

theorem string_append_data (a b : String) : (a ++ b).data = a.data ++ b.data := by
  cases a; cases b; rfl

theorem append_ne_of_ne_bases {b1 b2 : String} (h : b1.data.length = b2.data.length)
    (hne : b1.data ≠ b2.data) (s t : String) : b1 ++ s ≠ b2 ++ t := by
  intro hcontra
  apply hne
  have hd : (b1 ++ s).data = (b2 ++ t).data := by rw [hcontra]
  rw [string_append_data, string_append_data] at hd
  exact List.append_inj_left hd h

/-! ### Claim C5: leaf router ID and VTEP IP -/

/-- C5: for every leaf device with ordinal `n` the router ID is
`10.255.255.(101 + n - 1)` and the VTEP IP is `10.255.254.(101 + n - 1)`
(the same offset over two disjoint bases), the two strings are always
distinct, and `leaf01` yields `10.255.255.101` / `10.255.254.101`. -/
theorem c5_router_id_vtep_disjoint :
    (∀ device_name : String,
      generate_router_id device_name "leaf" =
        "10.255.255." ++ toString (LEAF_LOOPBACK_START + extract_device_number device_name - 1) ∧
      generate_vtep_ip device_name =
        "10.255.254." ++ toString (LEAF_LOOPBACK_START + extract_device_number device_name - 1) ∧
      generate_router_id device_name "leaf" ≠ generate_vtep_ip device_name) ∧
    generate_router_id "leaf01" "leaf" = "10.255.255.101" ∧
    generate_vtep_ip "leaf01" = "10.255.254.101" := by
  refine ⟨fun device_name => ⟨rfl, rfl, ?_⟩, by decide, by decide⟩
  unfold generate_router_id generate_vtep_ip LOOPBACK_BASE VTEP_LOOPBACK_BASE
  simp only [beq_iff_eq]
  apply append_ne_of_ne_bases
  · rfl
  · decide

/-- Witness for C5: the two addresses of `leaf01` are distinct. -/
theorem c5_witness :
    generate_router_id "leaf01" "leaf" ≠ generate_vtep_ip "leaf01" :=
  (c5_router_id_vtep_disjoint.1 "leaf01").2.2

/-! ### Claim C6: ASN scheme -/

/-- C6: the ASN generator returns the fixed spine base ASN `65000` for
every spine, returns `65100 + n - 1` for a leaf of ordinal `n`, and two
leaves with distinct ordinals receive distinct ASNs. -/
theorem c6_asn_scheme :
    (∀ device_name : String, generate_asn device_name "spine" = 65000) ∧
    (∀ device_name : String,
      generate_asn device_name "leaf" = 65100 + extract_device_number device_name - 1) ∧
    (∀ n1 n2 : String, extract_device_number n1 ≠ extract_device_number n2 →
      generate_asn n1 "leaf" ≠ generate_asn n2 "leaf") := by
  refine ⟨fun _ => rfl, fun _ => rfl, fun n1 n2 hne => ?_⟩
  have h1 : generate_asn n1 "leaf" = 65100 + extract_device_number n1 - 1 := rfl
  have h2 : generate_asn n2 "leaf" = 65100 + extract_device_number n2 - 1 := rfl
  rw [h1, h2]
  omega

/-- Witness for C6 at concrete leaves `leaf01` and `leaf02`. -/
theorem c6_witness :
    extract_device_number "leaf01" ≠ extract_device_number "leaf02" ∧
    generate_asn "leaf01" "leaf" ≠ generate_asn "leaf02" "leaf" :=
  ⟨by decide, c6_asn_scheme.2.2 "leaf01" "leaf02" (by decide)⟩

/-! ### Claim C8: the role classifier is total and idempotent -/

/-- C8: every device name maps to exactly one of the four roles, by
case-insensitive prefix match, with the same result on repeated calls
and no failure on any input. -/
theorem c8_role_classifier :
    ∀ device_name : String,
      (determine_device_role device_name = "spine" ∨
       determine_device_role device_name = "leaf" ∨
       determine_device_role device_name = "border" ∨
       determine_device_role device_name = "unknown") ∧
      determine_device_role device_name = determine_device_role device_name ∧
      (py_startswith (py_lower device_name) "spine" = true →
        determine_device_role device_name = "spine") ∧
      (py_startswith (py_lower device_name) "spine" = false →
       py_startswith (py_lower device_name) "leaf" = true →
        determine_device_role device_name = "leaf") ∧
      (py_startswith (py_lower device_name) "spine" = false →
       py_startswith (py_lower device_name) "leaf" = false →
       py_startswith (py_lower device_name) "border" = true →
        determine_device_role device_name = "border") ∧
      (py_startswith (py_lower device_name) "spine" = false →
       py_startswith (py_lower device_name) "leaf" = false →
       py_startswith (py_lower device_name) "border" = false →
        determine_device_role device_name = "unknown") := by
  intro device_name
  unfold determine_device_role
  refine ⟨?_, rfl, ?_, ?_, ?_, ?_⟩ <;>
    rcases hs : py_startswith (py_lower device_name) "spine" <;>
    rcases hl : py_startswith (py_lower device_name) "leaf" <;>
    rcases hb : py_startswith (py_lower device_name) "border" <;>
    simp [hs, hl, hb]

/-- Witness for C8 at the concrete name `Spine01` (case-insensitive hit). -/
theorem c8_witness :
    determine_device_role "Spine01" = "spine" :=
  (c8_role_classifier "Spine01").2.2.1 (by decide)

/-! ### Topology data model

A link endpoint `"device:iface"` is modelled already split into its
device and interface parts; `labels` entries `mode` / `vlan` are the
optional fields the script reads with `link.get('labels', {})`. -/

structure Endpoint where
  dev : String
  intf : String
  deriving DecidableEq

structure LinkLabels where
  mode : Option String := none
  vlan : Option Nat := none
  deriving DecidableEq

structure Link where
  ep1 : Endpoint
  ep2 : Endpoint
  labels : LinkLabels := {}
  deriving DecidableEq

/-- The slice of the ContainerLab YAML the planner reads:
`topology.nodes` keys (in insertion order), `topology.links`, and the
optional `mgmt.ipv4-subnet` string. -/
structure ClabData where
  nodes : List String
  links : List Link
  mgmtSubnet : Option String := none

/-- One entry of the result of `get_device_links` (lines 316-351). -/
structure DeviceLink where
  remote_device : String
  local_interface : String
  remote_interface : String
  link_index : Nat
  deriving DecidableEq

/-- Loop body of `get_device_links`: walks the link list with a running
`link_index`, keeping links touching `device_name` (first endpoint
checked first, `elif` on the second). -/
def get_device_links_aux (device_name : String) : List Link → Nat → List DeviceLink
  | [], _ => []
  | l :: ls, i =>
    if l.ep1.dev == device_name then
      { remote_device := l.ep2.dev, local_interface := l.ep1.intf,
        remote_interface := l.ep2.intf, link_index := i } ::
        get_device_links_aux device_name ls (i + 1)
    else if l.ep2.dev == device_name then
      { remote_device := l.ep1.dev, local_interface := l.ep2.intf,
        remote_interface := l.ep1.intf, link_index := i } ::
        get_device_links_aux device_name ls (i + 1)
    else
      get_device_links_aux device_name ls (i + 1)

/-- `get_device_links` (lines 316-351). -/
def get_device_links (device_name : String) (links : List Link) : List DeviceLink :=
  get_device_links_aux device_name links 0

/-! ### Per-link classification and assignment

Pure content of the loop body of `create_interfaces_and_links`
(lines 942-1051).  NetBox interface/VLAN get-or-create calls are the
collaborator boundary and are modelled as succeeding; the plan records
the descriptions, routed P2P address assignments and the access-VLAN
assignment the body hands to NetBox for one link. -/

structure IpAssign where
  dev : String
  intf : String
  ip : String
  deriving DecidableEq

structure LinkPlan where
  ep1_description : Option String
  ep2_description : Option String
  ip_assignments : List IpAssign
  vlan_access : Option (String × String × Nat)
  deriving DecidableEq

/-- Loop body of `create_interfaces_and_links` for the link at position
`link_index` (lines 949-1042). -/
def plan_link (link_index : Nat) (link : Link) : LinkPlan :=
  let device1_name := link.ep1.dev
  let device2_name := link.ep2.dev
  let device1_role := determine_device_role device1_name
  let device2_role := determine_device_role device2_name
  if (device1_role == "spine" && device2_role == "leaf") ||
     (device1_role == "leaf" && device2_role == "spine") then
    -- {spine, leaf}: routed fabric link (lines 974-994)
    let spineEp := if device1_role == "spine" then link.ep1 else link.ep2
    let leafEp := if device1_role == "spine" then link.ep2 else link.ep1
    { ep1_description := some ("to_" ++ device2_name),
      ep2_description := some ("to_" ++ device1_name),
      ip_assignments :=
        [⟨spineEp.dev, spineEp.intf, (calculate_p2p_ips link_index "spine").1⟩,
         ⟨leafEp.dev, leafEp.intf, (calculate_p2p_ips link_index "leaf").1⟩],
      vlan_access := none }
  else if (device1_role == "leaf" && device2_role == "unknown") ||
          (device1_role == "unknown" && device2_role == "leaf") then
    -- {leaf, unknown}: host-facing link (lines 996-1037)
    let leafEp := if device1_role == "leaf" then link.ep1 else link.ep2
    { ep1_description := some ("to_" ++ device2_name),
      ep2_description := some ("to_" ++ device1_name),
      ip_assignments := [],
      vlan_access :=
        -- Python: `if mode == 'access' and vlan_id:` (truthiness, so a
        -- present-but-zero VLAN id is skipped with the same branch)
        match link.labels.mode, link.labels.vlan with
        | some "access", some vlan_id =>
          if vlan_id != 0 then some (leafEp.dev, leafEp.intf, vlan_id) else none
        | _, _ => none }
  else
    -- any other role pair: no descriptions, addresses or VLANs
    { ep1_description := none, ep2_description := none,
      ip_assignments := [], vlan_access := none }

/-! ### Claim C1: spine/leaf P2P parity is resolved from roles -/

/-- C1: on every link whose endpoint roles are spine and leaf, the
spine endpoint is assigned `10.0.{linkIndex}.0/31` and the leaf endpoint
`10.0.{linkIndex}.1/31`, resolved from the device roles — the same
addresses are produced when the leaf endpoint is listed first. -/
theorem c1_p2p_parity_by_role (link_index : Nat) (link : Link) :
    (determine_device_role link.ep1.dev = "spine" →
     determine_device_role link.ep2.dev = "leaf" →
      (plan_link link_index link).ip_assignments =
        [⟨link.ep1.dev, link.ep1.intf, "10.0." ++ toString link_index ++ ".0/31"⟩,
         ⟨link.ep2.dev, link.ep2.intf, "10.0." ++ toString link_index ++ ".1/31"⟩]) ∧
    (determine_device_role link.ep1.dev = "leaf" →
     determine_device_role link.ep2.dev = "spine" →
      (plan_link link_index link).ip_assignments =
        [⟨link.ep2.dev, link.ep2.intf, "10.0." ++ toString link_index ++ ".0/31"⟩,
         ⟨link.ep1.dev, link.ep1.intf, "10.0." ++ toString link_index ++ ".1/31"⟩]) := by
  constructor <;> intro h1 h2 <;>
    simp [plan_link, h1, h2, calculate_p2p_ips, P2P_LINK_BASE, String.append_assoc]

/-- Witness for C1: a concrete link that lists the leaf endpoint first
still gives the spine the even address. -/
theorem c1_witness :
    determine_device_role "leaf01" = "leaf" ∧
    determine_device_role "spine01" = "spine" ∧
    (plan_link 3 ⟨⟨"leaf01", "eth1"⟩, ⟨"spine01", "eth2"⟩, {}⟩).ip_assignments =
      [⟨"spine01", "eth2", "10.0." ++ toString 3 ++ ".0/31"⟩,
       ⟨"leaf01", "eth1", "10.0." ++ toString 3 ++ ".1/31"⟩] :=
  ⟨by decide, by decide,
    (c1_p2p_parity_by_role 3 ⟨⟨"leaf01", "eth1"⟩, ⟨"spine01", "eth2"⟩, {}⟩).2
      (by decide) (by decide)⟩

/-! ### Claim C7: host-facing links get a VLAN, never a P2P address -/

/-- C7: a link whose endpoint roles are leaf and unknown receives no
routed P2P address on either side; when its labels carry mode `access`
with a (nonzero) VLAN id, exactly one access-VLAN assignment is made, on
the leaf-side interface with that VLAN untagged, and the host side only
gets a description. -/
theorem c7_host_facing_link (link_index : Nat) (link : Link) :
    (determine_device_role link.ep1.dev = "leaf" →
     determine_device_role link.ep2.dev = "unknown" →
      (plan_link link_index link).ip_assignments = [] ∧
      (plan_link link_index link).ep2_description = some ("to_" ++ link.ep1.dev) ∧
      (∀ vlan_id : Nat, link.labels.mode = some "access" → link.labels.vlan = some vlan_id →
        vlan_id ≠ 0 →
        (plan_link link_index link).vlan_access =
          some (link.ep1.dev, link.ep1.intf, vlan_id))) ∧
    (determine_device_role link.ep1.dev = "unknown" →
     determine_device_role link.ep2.dev = "leaf" →
      (plan_link link_index link).ip_assignments = [] ∧
      (plan_link link_index link).ep1_description = some ("to_" ++ link.ep2.dev) ∧
      (∀ vlan_id : Nat, link.labels.mode = some "access" → link.labels.vlan = some vlan_id →
        vlan_id ≠ 0 →
        (plan_link link_index link).vlan_access =
          some (link.ep2.dev, link.ep2.intf, vlan_id))) := by
  constructor <;> intro h1 h2 <;>
    refine ⟨by simp [plan_link, h1, h2], by simp [plan_link, h1, h2],
      fun vlan_id hm hv hnz => by simp [plan_link, h1, h2, hm, hv, hnz]⟩

/-- Witness for C7 at the spec's example link
`(leaf01:eth1, host01:eth1, labels={mode: access, vlan: 10})`. -/
theorem c7_witness :
    determine_device_role "leaf01" = "leaf" ∧
    determine_device_role "host01" = "unknown" ∧
    (plan_link 0 ⟨⟨"leaf01", "eth1"⟩, ⟨"host01", "eth1"⟩,
        { mode := some "access", vlan := some 10 }⟩).ip_assignments = [] ∧
    (plan_link 0 ⟨⟨"leaf01", "eth1"⟩, ⟨"host01", "eth1"⟩,
        { mode := some "access", vlan := some 10 }⟩).vlan_access =
      some ("leaf01", "eth1", 10) := by
  have h := c7_host_facing_link 0
    ⟨⟨"leaf01", "eth1"⟩, ⟨"host01", "eth1"⟩, { mode := some "access", vlan := some 10 }⟩
  exact ⟨by decide, by decide, (h.1 (by decide) (by decide)).1,
    (h.1 (by decide) (by decide)).2.2 10 rfl rfl (by decide)⟩

/-! ### Adjacency graph and BFS depth computation

`calculate_topology_depth` (lines 370-439) builds a dict
`device name -> list of neighbour names` by appending one entry per
link endpoint, then runs a BFS per spine.  The dict is modelled as an
association list in insertion order. -/

/-- `adjacency[k].append(v)` preceded by `if k not in adjacency:
adjacency[k] = []` (lines 394-400). -/
def adjInsert (m : List (String × List String)) (k v : String) :
    List (String × List String) :=
  match m with
  | [] => [(k, [v])]
  | (k', vs) :: rest =>
    if k' == k then (k', vs ++ [v]) :: rest else (k', vs) :: adjInsert rest k v

/-- `adjacency.get(current, [])`. -/
def adjGet (m : List (String × List String)) (k : String) : List String :=
  match m with
  | [] => []
  | (k', vs) :: rest => if k' == k then vs else adjGet rest k

/-- The adjacency-building loop of `calculate_topology_depth`
(lines 389-400): for each link append `dev2` to `dev1`'s list and
`dev1` to `dev2`'s list. -/
def build_adjacency (links : List Link) : List (String × List String) :=
  links.foldl (fun m l => adjInsert (adjInsert m l.ep1.dev l.ep2.dev) l.ep2.dev l.ep1.dev) []

/-- Inner `for neighbor in adjacency.get(current, [])` loop of
`bfs_shortest_path` (lines 414-422): returns an answer as soon as an
unvisited neighbour is a target, otherwise the queue and visited set
extended with the fresh neighbours. -/
def processNeighbors (targets : List String) (depth : Nat) :
    List String → List (String × Nat) → List String →
    Option Nat × List (String × Nat) × List String
  | [], queue, visited => (none, queue, visited)
  | n :: ns, queue, visited =>
    if visited.contains n then processNeighbors targets depth ns queue visited
    else if targets.contains n then (some (depth + 1), queue, visited)
    else processNeighbors targets depth ns (queue ++ [(n, depth + 1)]) (n :: visited)

/-- The `while queue:` loop of `bfs_shortest_path` (lines 411-424).
The Python loop is unbounded; here it carries a fuel argument that the
caller instantiates with a proven upper bound on the number of
iterations, so exhaustion never occurs on the call below
(`bfs_loop_no_fuel_exhaustion` style bounds are folded into the
correctness lemmas). -/
def bfs_loop (adj : List (String × List String)) (targets : List String) :
    Nat → List (String × Nat) → List String → Nat
  | 0, _, _ => 0
  | _ + 1, [], _ => 0
  | fuel + 1, (current, depth) :: rest, visited =>
    match processNeighbors targets depth (adjGet adj current) rest visited with
    | (some ans, _, _) => ans
    | (none, queue', visited') => bfs_loop adj targets fuel queue' visited'

/-- Total size of the adjacency lists: an upper bound (used as fuel) on
the number of nodes the BFS can ever enqueue after the start node. -/
def adj_size (adj : List (String × List String)) : Nat :=
  (adj.map (fun p => p.2.length)).sum

/-- `bfs_shortest_path(start, targets)` (lines 403-424): 0 when the
start is itself a target, the hop count of the first target found
otherwise, and 0 when no target is reachable. -/
def bfs_shortest_path (adj : List (String × List String)) (start : String)
    (targets : List String) : Nat :=
  if targets.contains start then 0
  else bfs_loop adj targets (2 * adj_size adj + 2) [(start, 0)] [start]

/-- The spine list of `calculate_topology_depth` (line 378). -/
def topology_spines (clab : ClabData) : List String :=
  clab.nodes.filter (fun name => determine_device_role name == "spine")

/-- The leaf list of `calculate_topology_depth` (line 379). -/
def topology_leafs (clab : ClabData) : List String :=
  clab.nodes.filter (fun name => determine_device_role name == "leaf")

/-- `calculate_topology_depth` (lines 370-439): default 2 without a
spine or a leaf, otherwise `max` over spines of the per-spine BFS
result, plus one. -/
def calculate_topology_depth (clab : ClabData) : Nat :=
  let spines := topology_spines clab
  let leafs := topology_leafs clab
  if spines.isEmpty || leafs.isEmpty then 2
  else
    let adjacency := build_adjacency clab.links
    let max_depth := spines.foldl
      (fun max_depth spine => max max_depth (bfs_shortest_path adjacency spine leafs)) 0
    max_depth + 1

/-! ### Claim C4: the adjacency structure does not collapse parallel links -/

/-- The property claimed by the spec for the traversal structure: each
neighbour appears at most once per device. -/
def AdjacencyCollapsed (links : List Link) : Prop :=
  ∀ d : String, (adjGet (build_adjacency links) d).Nodup

/-- Number of links of the list joining `d` and `n`, counted once per
orientation in which they appear (a self-loop on `d` counts twice,
matching the two appends the loop performs). -/
def link_mult (links : List Link) (d n : String) : Nat :=
  (links.map (fun l =>
    (if l.ep1.dev = d then (if l.ep2.dev = n then 1 else 0) else 0) +
    (if l.ep2.dev = d then (if l.ep1.dev = n then 1 else 0) else 0))).sum

theorem adjGet_adjInsert (m : List (String × List String)) (k v x : String) :
    adjGet (adjInsert m k v) x = if x = k then adjGet m x ++ [v] else adjGet m x := by
  induction m with
  | nil =>
    by_cases hxk : x = k
    · subst hxk
      simp [adjInsert, adjGet]
    · have h1 : (k == x) = false := by simp; exact fun h => hxk h.symm
      simp [adjInsert, adjGet, h1, hxk]
  | cons p rest ih =>
    obtain ⟨k', vs⟩ := p
    by_cases hk : k' = k
    · subst hk
      by_cases hxk : x = k'
      · subst hxk
        simp [adjInsert, adjGet]
      · have h1 : (k' == x) = false := by simp; exact fun h => hxk h.symm
        simp [adjInsert, adjGet, h1, hxk]
    · have hbeq : (k' == k) = false := by simp [hk]
      by_cases hxk : x = k'
      · subst hxk
        simp [adjInsert, adjGet, hbeq, hk]
      · have h1 : (k' == x) = false := by simp; exact fun h => hxk h.symm
        simp [adjInsert, adjGet, hbeq, h1, hxk, ih]

theorem count_adjInsert_step (m : List (String × List String)) (a b d n : String) :
    (adjGet (adjInsert (adjInsert m a b) b a) d).count n
      = (adjGet m d).count n
        + ((if a = d then (if b = n then 1 else 0) else 0)
           + (if b = d then (if a = n then 1 else 0) else 0)) := by
  rw [adjGet_adjInsert, adjGet_adjInsert]
  split_ifs <;> subst_vars <;>
    simp_all [List.count_append, List.count_cons]

theorem build_adjacency_foldl_count (d n : String) :
    ∀ (links : List Link) (m : List (String × List String)),
    (adjGet (links.foldl
        (fun m l => adjInsert (adjInsert m l.ep1.dev l.ep2.dev) l.ep2.dev l.ep1.dev) m) d).count n
      = (adjGet m d).count n + link_mult links d n := by
  intro links
  induction links with
  | nil => intro m; simp [link_mult]
  | cons l ls ih =>
    intro m
    have hm : link_mult (l :: ls) d n
        = ((if l.ep1.dev = d then (if l.ep2.dev = n then 1 else 0) else 0)
           + (if l.ep2.dev = d then (if l.ep1.dev = n then 1 else 0) else 0))
          + link_mult ls d n := by
      simp [link_mult]
    rw [List.foldl_cons, ih, count_adjInsert_step, hm]
    omega

/-- C4 counterexample: with two parallel links between `spine01` and
`leaf01`, the adjacency structure used for depth computation holds
`leaf01` twice in `spine01`'s neighbour list — the claimed collapse of
parallel links into a single adjacency edge fails. -/
theorem c4_counterexample :
    ¬ AdjacencyCollapsed
        [⟨⟨"spine01", "eth1"⟩, ⟨"leaf01", "eth1"⟩, {}⟩,
         ⟨⟨"spine01", "eth2"⟩, ⟨"leaf01", "eth2"⟩, {}⟩] ∧
    (adjGet (build_adjacency
        [⟨⟨"spine01", "eth1"⟩, ⟨"leaf01", "eth1"⟩, {}⟩,
         ⟨⟨"spine01", "eth2"⟩, ⟨"leaf01", "eth2"⟩, {}⟩]) "spine01").count "leaf01" = 2 :=
  ⟨fun h => absurd (h "spine01") (by decide), by decide⟩

/-- C4 (amended): the adjacency mapping built for depth computation
maps each device name to the list of its neighbours with one entry per
link (a neighbour reached over k parallel links appears k times, and a
self-loop twice); parallel links are not collapsed. -/
theorem c4_adjacency_link_multiplicity (links : List Link) (d n : String) :
    (adjGet (build_adjacency links) d).count n = link_mult links d n := by
  have h := build_adjacency_foldl_count d n links []
  simpa [build_adjacency, adjGet] using h

/-! ### Config-context documents (`generate_spine_config_context`,
`generate_leaf_config_context`, lines 537-697) -/

structure PeerGroup where
  name : String
  send_community : String
  update_source : Option String := none
  ebgp_multihop : Option Nat := none
  deriving DecidableEq

structure UnderlayNeighbor where
  ip : String
  interface : String
  peer_group : String
  remote_as : Nat
  description : String
  deriving DecidableEq

structure EvpnNeighbor where
  ip : String
  remote_as : Nat
  peer_group : String
  encapsulation : String
  deriving DecidableEq

structure BgpConfig where
  asn : Nat
  maximum_paths : Nat
  ecmp_paths : Nat
  peer_groups : List PeerGroup
  underlay_neighbors : List UnderlayNeighbor
  evpn_neighbors : List EvpnNeighbor
  deriving DecidableEq

structure VxlanConfig where
  vtep_source_interface : String
  udp_port : Nat
  vlan_vni_mappings : List (Nat × Nat)
  deriving DecidableEq

structure ConfigContext where
  vxlan : Option VxlanConfig := none
  bgp : BgpConfig
  ntp_servers : List String
  dns_servers : List String
  syslog_servers : List String
  deriving DecidableEq

/-- `generate_spine_config_context` (lines 537-609).  The Python
`list(set(...))` on remote leaf names is modelled by `List.dedup`
(same members and count; Python's set iteration order is unspecified).
Unused parameters `device_data` / `all_devices` are dropped. -/
def generate_spine_config_context (device_name : String) (clab : ClabData) : ConfigContext :=
  let asn := generate_asn device_name "spine"
  let ebgp_multihop := calculate_topology_depth clab
  let all_links := get_device_links device_name clab.links
  let leaf_links := all_links.filter
    (fun link => determine_device_role link.remote_device == "leaf")
  let underlay_neighbors : List UnderlayNeighbor := leaf_links.map (fun link =>
    { ip := (calculate_p2p_ips link.link_index "spine").2,
      interface := link.local_interface,
      peer_group := "SPINE_UNDERLAY",
      remote_as := generate_asn link.remote_device "leaf",
      description := link.remote_device })
  let unique_leafs := (leaf_links.map (fun link => link.remote_device)).dedup
  let evpn_neighbors : List EvpnNeighbor := unique_leafs.map (fun leaf =>
    { ip := generate_vtep_ip leaf,
      remote_as := generate_asn leaf "leaf",
      peer_group := "EVPN_OVERLAY",
      encapsulation := "vxlan" })
  { bgp :=
      { asn := asn, maximum_paths := 4, ecmp_paths := 4,
        peer_groups :=
          [{ name := "SPINE_UNDERLAY", send_community := "extended" },
           { name := "EVPN_OVERLAY", send_community := "extended",
             update_source := some "Loopback0",
             ebgp_multihop := some ebgp_multihop }],
        underlay_neighbors := underlay_neighbors,
        evpn_neighbors := evpn_neighbors },
    ntp_servers := ["10.0.0.100", "10.0.0.101"],
    dns_servers := ["10.0.0.50", "10.0.0.51"],
    syslog_servers := ["10.0.0.200"] }

/-- `generate_leaf_config_context` (lines 611-697). -/
def generate_leaf_config_context (device_name : String) (clab : ClabData) : ConfigContext :=
  let asn := generate_asn device_name "leaf"
  let ebgp_multihop := calculate_topology_depth clab
  let all_links := get_device_links device_name clab.links
  let spine_links := all_links.filter
    (fun link => determine_device_role link.remote_device == "spine")
  let underlay_neighbors : List UnderlayNeighbor := spine_links.map (fun link =>
    { ip := (calculate_p2p_ips link.link_index "leaf").2,
      interface := link.local_interface,
      peer_group := "LEAF_UNDERLAY",
      remote_as := generate_asn link.remote_device "spine",
      description := link.remote_device })
  let unique_spines := (spine_links.map (fun link => link.remote_device)).dedup
  let evpn_neighbors : List EvpnNeighbor := unique_spines.map (fun spine =>
    { ip := generate_router_id spine "spine",
      remote_as := generate_asn spine "spine",
      peer_group := "EVPN_OVERLAY",
      encapsulation := "vxlan" })
  let vlan_vni_mappings := DEFAULT_VLANS.map (fun vlan => (vlan.1, 10000 + vlan.1))
  { vxlan := some
      { vtep_source_interface := "Loopback1",
        udp_port := 4789,
        vlan_vni_mappings := vlan_vni_mappings },
    bgp :=
      { asn := asn, maximum_paths := 4, ecmp_paths := 4,
        peer_groups :=
          [{ name := "LEAF_UNDERLAY", send_community := "extended" },
           { name := "EVPN_OVERLAY", send_community := "extended",
             update_source := some "Loopback1",
             ebgp_multihop := some ebgp_multihop }],
        underlay_neighbors := underlay_neighbors,
        evpn_neighbors := evpn_neighbors },
    ntp_servers := ["10.0.0.100", "10.0.0.101"],
    dns_servers := ["10.0.0.50", "10.0.0.51"],
    syslog_servers := ["10.0.0.200"] }

/-! ### Claim C3: underlay and overlay neighbour counts

Spec-side notions, written from the claim: the physical links that
connect a device to a device of the opposite tier, and the distinct
opposite-tier devices those links reach. -/

/-- Links of the list whose two endpoints are the given device and a
device classified in the given opposite tier. -/
def links_to_tier (links : List Link) (device_name role2 : String) : List Link :=
  links.filter (fun l =>
    (l.ep1.dev == device_name && determine_device_role l.ep2.dev == role2) ||
    (l.ep2.dev == device_name && determine_device_role l.ep1.dev == role2))

/-- The opposite endpoint of a link as seen from the given device. -/
def remote_of (device_name : String) (l : Link) : String :=
  if l.ep1.dev == device_name then l.ep2.dev else l.ep1.dev

/-- The opposite-tier devices of the given device, one per link. -/
def tier_neighbors (links : List Link) (device_name role2 : String) : List String :=
  (links_to_tier links device_name role2).map (remote_of device_name)

theorem device_links_filter_map_eq (device_name role2 : String)
    (hne : (determine_device_role device_name == role2) = false) :
    ∀ (links : List Link) (i : Nat),
    ((get_device_links_aux device_name links i).filter
        (fun dl => determine_device_role dl.remote_device == role2)).map
        (fun dl => dl.remote_device)
      = (links_to_tier links device_name role2).map (remote_of device_name) := by
  intro links
  induction links with
  | nil => intro i; simp [get_device_links_aux, links_to_tier]
  | cons l ls ih =>
    intro i
    by_cases h1 : l.ep1.dev == device_name
    · have he1 : l.ep1.dev = device_name := by simpa using h1
      have hr1 : (determine_device_role l.ep1.dev == role2) = false := by rw [he1]; exact hne
      by_cases hc : determine_device_role l.ep2.dev == role2
      · simp [get_device_links_aux, links_to_tier, List.filter_cons, remote_of,
          h1, hr1, hc, ih (i + 1), tier_neighbors]
      · simp [get_device_links_aux, links_to_tier, List.filter_cons, remote_of,
          h1, hr1, hc, ih (i + 1)]
    · by_cases h2 : l.ep2.dev == device_name
      · have he2 : l.ep2.dev = device_name := by simpa using h2
        have hr2 : (determine_device_role l.ep2.dev == role2) = false := by rw [he2]; exact hne
        by_cases hc : determine_device_role l.ep1.dev == role2
        · simp [get_device_links_aux, links_to_tier, List.filter_cons, remote_of,
            h1, h2, hr2, hc, ih (i + 1)]
        · simp [get_device_links_aux, links_to_tier, List.filter_cons, remote_of,
            h1, h2, hr2, hc, ih (i + 1)]
      · simp [get_device_links_aux, links_to_tier, List.filter_cons, remote_of,
          h1, h2, ih (i + 1)]

/-- C3: for every spine (resp. leaf) the generated config context has
one underlay neighbour per physical link to the opposite tier, and one
EVPN overlay neighbour per distinct opposite-tier device reached; when
distinct reached devices carry distinct overlay addresses the overlay
list holds no duplicate entries, in particular parallel links to the
same device never produce duplicates. -/
theorem c3_neighbor_counts :
    (∀ (clab : ClabData) (device_name : String),
      determine_device_role device_name = "spine" →
      (generate_spine_config_context device_name clab).bgp.underlay_neighbors.length
          = (links_to_tier clab.links device_name "leaf").length ∧
      (generate_spine_config_context device_name clab).bgp.evpn_neighbors.length
          = (tier_neighbors clab.links device_name "leaf").toFinset.card ∧
      ((∀ a ∈ tier_neighbors clab.links device_name "leaf",
        ∀ b ∈ tier_neighbors clab.links device_name "leaf",
          generate_vtep_ip a = generate_vtep_ip b → a = b) →
        (generate_spine_config_context device_name clab).bgp.evpn_neighbors.Nodup)) ∧
    (∀ (clab : ClabData) (device_name : String),
      determine_device_role device_name = "leaf" →
      (generate_leaf_config_context device_name clab).bgp.underlay_neighbors.length
          = (links_to_tier clab.links device_name "spine").length ∧
      (generate_leaf_config_context device_name clab).bgp.evpn_neighbors.length
          = (tier_neighbors clab.links device_name "spine").toFinset.card ∧
      ((∀ a ∈ tier_neighbors clab.links device_name "spine",
        ∀ b ∈ tier_neighbors clab.links device_name "spine",
          generate_router_id a "spine" = generate_router_id b "spine" → a = b) →
        (generate_leaf_config_context device_name clab).bgp.evpn_neighbors.Nodup)) := by
  constructor
  · intro clab device_name hrole
    have hne : (determine_device_role device_name == "leaf") = false := by
      rw [hrole]; decide
    have hmapeq := device_links_filter_map_eq device_name "leaf" hne clab.links 0
    refine ⟨?_, ?_, ?_⟩
    · have := congrArg List.length hmapeq
      simpa [generate_spine_config_context, get_device_links] using this
    · have := congrArg (fun l => l.dedup.length) hmapeq
      simp only [generate_spine_config_context, get_device_links, List.length_map]
      rw [List.card_toFinset, tier_neighbors]
      simpa [tier_neighbors] using this
    · intro hinj
      simp only [generate_spine_config_context, get_device_links]
      apply List.Nodup.map_on
      · intro x hx y hy hxy
        have hx' : x ∈ tier_neighbors clab.links device_name "leaf" := by
          rw [tier_neighbors, ← hmapeq]; exact List.mem_dedup.mp hx
        have hy' : y ∈ tier_neighbors clab.links device_name "leaf" := by
          rw [tier_neighbors, ← hmapeq]; exact List.mem_dedup.mp hy
        exact hinj x hx' y hy' (congrArg EvpnNeighbor.ip hxy)
      · exact List.nodup_dedup _
  · intro clab device_name hrole
    have hne : (determine_device_role device_name == "spine") = false := by
      rw [hrole]; decide
    have hmapeq := device_links_filter_map_eq device_name "spine" hne clab.links 0
    refine ⟨?_, ?_, ?_⟩
    · have := congrArg List.length hmapeq
      simpa [generate_leaf_config_context, get_device_links] using this
    · have := congrArg (fun l => l.dedup.length) hmapeq
      simp only [generate_leaf_config_context, get_device_links, List.length_map]
      rw [List.card_toFinset, tier_neighbors]
      simpa [tier_neighbors] using this
    · intro hinj
      simp only [generate_leaf_config_context, get_device_links]
      apply List.Nodup.map_on
      · intro x hx y hy hxy
        have hx' : x ∈ tier_neighbors clab.links device_name "spine" := by
          rw [tier_neighbors, ← hmapeq]; exact List.mem_dedup.mp hx
        have hy' : y ∈ tier_neighbors clab.links device_name "spine" := by
          rw [tier_neighbors, ← hmapeq]; exact List.mem_dedup.mp hy
        exact hinj x hx' y hy' (congrArg EvpnNeighbor.ip hxy)
      · exact List.nodup_dedup _

/-- Shared example topology: two spines and two leaves, each leaf linked
to both spines (4 links). -/
def example_topology : ClabData :=
  { nodes := ["spine01", "spine02", "leaf01", "leaf02"],
    links :=
      [⟨⟨"spine01", "eth1"⟩, ⟨"leaf01", "eth1"⟩, {}⟩,
       ⟨⟨"spine01", "eth2"⟩, ⟨"leaf02", "eth1"⟩, {}⟩,
       ⟨⟨"spine02", "eth1"⟩, ⟨"leaf01", "eth2"⟩, {}⟩,
       ⟨⟨"spine02", "eth2"⟩, ⟨"leaf02", "eth2"⟩, {}⟩] }

/-- Example topology with two parallel links between `spine01` and
`leaf01` next to a single link to `leaf02`. -/
def parallel_link_topology : ClabData :=
  { nodes := ["spine01", "leaf01", "leaf02"],
    links :=
      [⟨⟨"spine01", "eth1"⟩, ⟨"leaf01", "eth1"⟩, {}⟩,
       ⟨⟨"spine01", "eth2"⟩, ⟨"leaf01", "eth2"⟩, {}⟩,
       ⟨⟨"spine01", "eth3"⟩, ⟨"leaf02", "eth1"⟩, {}⟩] }

/-- Witness for C3 on the parallel-link topology: three underlay
neighbours (one per link), two overlay neighbours (one per distinct
leaf), no duplicate overlay entries. -/
theorem c3_witness :
    (generate_spine_config_context "spine01" parallel_link_topology).bgp.underlay_neighbors.length
        = (links_to_tier parallel_link_topology.links "spine01" "leaf").length ∧
    (generate_spine_config_context "spine01" parallel_link_topology).bgp.evpn_neighbors.length
        = (tier_neighbors parallel_link_topology.links "spine01" "leaf").toFinset.card ∧
    (generate_spine_config_context "spine01" parallel_link_topology).bgp.evpn_neighbors.Nodup := by
  have h := c3_neighbor_counts.1 parallel_link_topology "spine01" (by decide)
  exact ⟨h.1, h.2.1, h.2.2 (by decide)⟩

/-! ### Claim C9: fatal input validation versus per-device skipping

Pure content of `create_devices` (lines 712-833): the management-subnet
validation precedes the device loop and raises on failure; inside the
loop each device is processed under `try/except Exception: continue`,
so a failing device is skipped and the rest still processed.  The
per-device body (NetBox CRUD) is the collaborator boundary, abstracted
as a function returning `none` exactly when it raises. -/

/-- The `mgmt.ipv4-subnet` validation of `create_devices`
(lines 717-730): missing or empty subnet and a subnet without a prefix
length are raised errors; otherwise the prefix length after the last
slash is extracted (`mgmt_subnet.split('/')[-1]`). -/
def mgmt_prefix_check (clab : ClabData) : Except String String :=
  match clab.mgmtSubnet with
  | none => Except.error "Management subnet not defined in clab.yml"
  | some mgmt_subnet =>
    if mgmt_subnet.data.isEmpty then
      Except.error "Management subnet not defined in clab.yml"
    else if !(py_contains mgmt_subnet '/') then
      Except.error "Management subnet must include prefix length (e.g., 192.168.121.0/24)"
    else
      Except.ok ⟨(mgmt_subnet.data.reverse.takeWhile (fun c => c ≠ '/')).reverse⟩

/-- The device loop of `create_devices` (lines 737-830): failures of
the per-device body are skipped (`except ... continue`). -/
def process_devices {α : Type} (process : String → Option α) : List String → List α
  | [] => []
  | node_name :: rest =>
    match process node_name with
    | some d => d :: process_devices process rest
    | none => process_devices process rest

/-- `create_devices` (lines 712-833): subnet validation first, then the
per-device loop. -/
def create_devices {α : Type} (clab : ClabData) (process : String → Option α) :
    Except String (List α) :=
  match mgmt_prefix_check clab with
  | Except.error e => Except.error e
  | Except.ok _ => Except.ok (process_devices process clab.nodes)

theorem process_devices_append {α : Type} (process : String → Option α)
    (l1 l2 : List String) :
    process_devices process (l1 ++ l2)
      = process_devices process l1 ++ process_devices process l2 := by
  induction l1 with
  | nil => simp [process_devices]
  | cons n rest ih =>
    cases h : process n <;> simp [process_devices, h, ih]

/-- C9: a missing management subnet, or one without a prefix length, is
fatal before any device is processed (the outcome does not depend on
the per-device work at all); with a valid subnet the run returns the
results of the device loop, in which a failing device is skipped while
every other device is still processed. -/
theorem c9_mgmt_subnet_fatal :
    (∀ (clab : ClabData) (α : Type) (process1 process2 : String → Option α),
      (clab.mgmtSubnet = none ∨
        ∃ s, clab.mgmtSubnet = some s ∧
          (s.data.isEmpty = true ∨ py_contains s '/' = false)) →
      (∃ e, create_devices clab process1 = Except.error e) ∧
      create_devices clab process1 = create_devices clab process2) ∧
    (∀ (clab : ClabData) (α : Type) (process : String → Option α) (s : String),
      clab.mgmtSubnet = some s → s.data.isEmpty = false → py_contains s '/' = true →
      create_devices clab process = Except.ok (process_devices process clab.nodes)) ∧
    (∀ (α : Type) (process : String → Option α) (node_name : String)
        (pre post : List String), process node_name = none →
      process_devices process (pre ++ node_name :: post)
        = process_devices process pre ++ process_devices process post) := by
  refine ⟨?_, ?_, ?_⟩
  · intro clab α process1 process2 hbad
    rcases hbad with hnone | ⟨s, hs, hbad⟩
    · exact ⟨⟨"Management subnet not defined in clab.yml",
          by simp [create_devices, mgmt_prefix_check, hnone]⟩,
        by simp [create_devices, mgmt_prefix_check, hnone]⟩
    · rcases hbad with hempty | hnoslash
      · exact ⟨⟨"Management subnet not defined in clab.yml",
            by simp [create_devices, mgmt_prefix_check, hs, hempty]⟩,
          by simp [create_devices, mgmt_prefix_check, hs, hempty]⟩
      · by_cases hemp : s.data = []
        · exact ⟨⟨"Management subnet not defined in clab.yml",
              by simp [create_devices, mgmt_prefix_check, hs, hemp]⟩,
            by simp [create_devices, mgmt_prefix_check, hs, hemp]⟩
        · exact ⟨⟨"Management subnet must include prefix length (e.g., 192.168.121.0/24)",
              by simp [create_devices, mgmt_prefix_check, hs, hemp, hnoslash]⟩,
            by simp [create_devices, mgmt_prefix_check, hs, hemp, hnoslash]⟩
  · intro clab α process s hs hne hslash
    simp [create_devices, mgmt_prefix_check, hs, hne, hslash]
  · intro α process node_name pre post hfail
    rw [process_devices_append]
    simp [process_devices, hfail]

/-- Witness for C9: a subnet without a prefix length is fatal no matter
what the per-device work would have been, and with a valid subnet a
failure on `leaf01` skips only `leaf01`. -/
theorem c9_witness :
    create_devices
        { nodes := ["leaf01"], links := [], mgmtSubnet := some "192.168.121.0" }
        (fun n => some n)
      = create_devices
        { nodes := ["leaf01"], links := [], mgmtSubnet := some "192.168.121.0" }
        (fun _ => (none : Option String)) ∧
    create_devices
        { nodes := ["spine01", "leaf01", "leaf02"], links := [],
          mgmtSubnet := some "192.168.121.0/24" }
        (fun n => if n == "leaf01" then none else some n)
      = Except.ok ["spine01", "leaf02"] := by
  constructor
  · exact (c9_mgmt_subnet_fatal.1
      { nodes := ["leaf01"], links := [], mgmtSubnet := some "192.168.121.0" }
      String (fun n => some n) (fun _ => none)
      (Or.inr ⟨"192.168.121.0", rfl, Or.inr (by decide)⟩)).2
  · rw [c9_mgmt_subnet_fatal.2.1
      { nodes := ["spine01", "leaf01", "leaf02"], links := [],
        mgmtSubnet := some "192.168.121.0/24" }
      String (fun n => if n == "leaf01" then none else some n)
      "192.168.121.0/24" rfl (by decide) (by decide)]
    rw [show ["spine01", "leaf01", "leaf02"] = ["spine01"] ++ "leaf01" :: ["leaf02"] from rfl,
      c9_mgmt_subnet_fatal.2.2 String
        (fun n => if n == "leaf01" then none else some n) "leaf01"
        ["spine01"] ["leaf02"] (by decide)]
    rfl

/-! ### Reachability in the adjacency graph (specification side)

`ReachF adj a b n` holds when the adjacency structure contains a walk
of `n` hops from `a` to `b`; the BFS of the script is proved to
compute the least such `n` into a target set. -/

inductive ReachF (adj : List (String × List String)) : String → String → Nat → Prop
  | refl (a : String) : ReachF adj a a 0
  | cons {a b c : String} {n : Nat} :
      b ∈ adjGet adj a → ReachF adj b c n → ReachF adj a c (n + 1)

/-- `d` is the length of a shortest walk from `start` into the target
set. -/
def ShortestToSet (adj : List (String × List String)) (start : String)
    (targets : List String) (d : Nat) : Prop :=
  (∃ t ∈ targets, ReachF adj start t d) ∧
  (∀ t n, t ∈ targets → ReachF adj start t n → d ≤ n)

theorem reachF_zero {adj : List (String × List String)} {a b : String}
    (h : ReachF adj a b 0) : a = b := by
  cases h; rfl

theorem reachF_succ {adj : List (String × List String)} {a c : String} {n : Nat}
    (h : ReachF adj a c (n + 1)) : ∃ b ∈ adjGet adj a, ReachF adj b c n := by
  cases h with
  | cons hb hr => exact ⟨_, hb, hr⟩

theorem reachF_snoc {adj : List (String × List String)} {a b : String} {n : Nat}
    (h : ReachF adj a b n) : ∀ c ∈ adjGet adj b, ReachF adj a c (n + 1) := by
  induction h with
  | refl x => exact fun c hc => ReachF.cons hc (ReachF.refl c)
  | cons hb _ ih => exact fun c hc => ReachF.cons hb (ih c hc)

/-! ### Characterisation of the inner neighbour loop -/

theorem contains_iff (l : List String) (a : String) : l.contains a = true ↔ a ∈ l :=
  List.elem_iff

theorem contains_false (l : List String) (a : String) (h : l.contains a = false) :
    a ∉ l := by
  intro hmem
  rw [(contains_iff l a).mpr hmem] at h
  cases h

theorem pn_some_shape (targets : List String) (depth : Nat) :
    ∀ (ns : List String) (queue : List (String × Nat)) (visited : List String)
      (a : Nat) (q' : List (String × Nat)) (v' : List String),
      processNeighbors targets depth ns queue visited = (some a, q', v') →
      a = depth + 1 ∧ ∃ x ∈ ns, x ∈ targets := by
  intro ns
  induction ns with
  | nil => intro queue visited a q' v' h; simp [processNeighbors] at h
  | cons n ns ih =>
    intro queue visited a q' v' h
    cases hv : visited.contains n with
    | true =>
      rw [processNeighbors, hv] at h
      simp only [if_true] at h
      obtain ⟨ha, x, hx, hxt⟩ := ih _ _ _ _ _ h
      exact ⟨ha, x, List.mem_cons_of_mem _ hx, hxt⟩
    | false =>
      cases ht : targets.contains n with
      | true =>
        rw [processNeighbors, hv, ht] at h
        simp only [Bool.false_eq_true, if_false, if_true, Prod.mk.injEq,
          Option.some.injEq] at h
        exact ⟨h.1.symm, n, List.mem_cons_self n ns, (contains_iff _ _).mp ht⟩
      | false =>
        rw [processNeighbors, hv, ht] at h
        simp only [Bool.false_eq_true, if_false] at h
        obtain ⟨ha, x, hx, hxt⟩ := ih _ _ _ _ _ h
        exact ⟨ha, x, List.mem_cons_of_mem _ hx, hxt⟩

theorem pn_none_shape (targets : List String) (depth : Nat) :
    ∀ (ns : List String) (queue : List (String × Nat)) (visited : List String)
      (q' : List (String × Nat)) (v' : List String),
      processNeighbors targets depth ns queue visited = (none, q', v') →
      ∃ news : List String,
        news.Nodup ∧
        (∀ x ∈ news, x ∈ ns ∧ x ∉ targets ∧ x ∉ visited) ∧
        v' = news.reverse ++ visited ∧
        q' = queue ++ news.map (fun n => (n, depth + 1)) := by
  intro ns
  induction ns with
  | nil =>
    intro queue visited q' v' h
    rw [processNeighbors] at h
    simp only [Prod.mk.injEq] at h
    exact ⟨[], List.nodup_nil, by simp, h.2.2.symm ▸ by simp, h.2.1.symm ▸ by simp⟩
  | cons n ns ih =>
    intro queue visited q' v' h
    cases hv : visited.contains n with
    | true =>
      rw [processNeighbors, hv] at h
      simp only [if_true] at h
      obtain ⟨news, hnd, hmem, hv', hq'⟩ := ih _ _ _ _ h
      exact ⟨news, hnd,
        fun x hx => ⟨List.mem_cons_of_mem _ (hmem x hx).1, (hmem x hx).2.1, (hmem x hx).2.2⟩,
        hv', hq'⟩
    | false =>
      cases ht : targets.contains n with
      | true =>
        rw [processNeighbors, hv, ht] at h
        simp at h
      | false =>
        rw [processNeighbors, hv, ht] at h
        simp only [Bool.false_eq_true, if_false] at h
        obtain ⟨news, hnd, hmem, hv', hq'⟩ := ih _ _ _ _ h
        have hnv : n ∉ visited := contains_false _ _ hv
        have hnt : n ∉ targets := contains_false _ _ ht
        refine ⟨n :: news, ?_, ?_, ?_, ?_⟩
        · exact List.nodup_cons.mpr
            ⟨fun hn => ((hmem n hn).2.2 (List.mem_cons_self n visited)), hnd⟩
        · intro x hx
          rcases List.mem_cons.mp hx with rfl | hx'
          · exact ⟨List.mem_cons_self x ns, hnt, hnv⟩
          · obtain ⟨hins, hnt', hnvis⟩ := hmem x hx'
            exact ⟨List.mem_cons_of_mem _ hins, hnt',
              fun hc => hnvis (List.mem_cons_of_mem _ hc)⟩
        · rw [hv']; simp
        · rw [hq']; simp

theorem pn_none_all_visited (targets : List String) (depth : Nat) :
    ∀ (ns : List String) (queue : List (String × Nat)) (visited : List String)
      (q' : List (String × Nat)) (v' : List String),
      processNeighbors targets depth ns queue visited = (none, q', v') →
      ∀ x ∈ ns, x ∈ v' := by
  intro ns
  induction ns with
  | nil => intro queue visited q' v' _ x hx; cases hx
  | cons n ns ih =>
    intro queue visited q' v' h x hx
    cases hv : visited.contains n with
    | true =>
      rw [processNeighbors, hv] at h
      simp only [if_true] at h
      obtain ⟨news, _, _, hv', _⟩ := pn_none_shape targets depth _ _ _ _ _ h
      rcases List.mem_cons.mp hx with rfl | hx'
      · rw [hv']
        exact List.mem_append_right _ ((contains_iff _ _).mp hv)
      · exact ih _ _ _ _ h x hx'
    | false =>
      cases ht : targets.contains n with
      | true =>
        rw [processNeighbors, hv, ht] at h
        simp at h
      | false =>
        rw [processNeighbors, hv, ht] at h
        simp only [Bool.false_eq_true, if_false] at h
        rcases List.mem_cons.mp hx with rfl | hx'
        · obtain ⟨news, _, _, hv', _⟩ := pn_none_shape targets depth _ _ _ _ _ h
          rw [hv']
          exact List.mem_append_right _ (List.mem_cons_self _ _)
        · exact ih _ _ _ _ h x hx'

theorem pn_none_targets_old (targets : List String) (depth : Nat) :
    ∀ (ns : List String) (queue : List (String × Nat)) (visited : List String)
      (q' : List (String × Nat)) (v' : List String),
      processNeighbors targets depth ns queue visited = (none, q', v') →
      ∀ x ∈ ns, x ∈ targets → x ∈ visited := by
  intro ns
  induction ns with
  | nil => intro queue visited q' v' _ x hx; cases hx
  | cons n ns ih =>
    intro queue visited q' v' h x hx hxt
    cases hv : visited.contains n with
    | true =>
      rw [processNeighbors, hv] at h
      simp only [if_true] at h
      rcases List.mem_cons.mp hx with rfl | hx'
      · exact (contains_iff _ _).mp hv
      · exact ih _ _ _ _ h x hx' hxt
    | false =>
      cases ht : targets.contains n with
      | true =>
        rw [processNeighbors, hv, ht] at h
        simp at h
      | false =>
        rw [processNeighbors, hv, ht] at h
        simp only [Bool.false_eq_true, if_false] at h
        rcases List.mem_cons.mp hx with rfl | hx'
        · exact absurd hxt (contains_false _ _ ht)
        · have := ih _ _ _ _ h x hx' hxt
          rcases List.mem_cons.mp this with rfl | hxv
          · exact absurd hxt (contains_false _ _ ht)
          · exact hxv

/-! ### Soundness: a nonzero BFS answer is a real walk length -/

theorem bfs_loop_sound (adj : List (String × List String)) (targets : List String)
    (start : String) :
    ∀ (fuel : Nat) (queue : List (String × Nat)) (visited : List String),
      (∀ p ∈ queue, ReachF adj start p.1 p.2) →
      1 ≤ bfs_loop adj targets fuel queue visited →
      ∃ t ∈ targets, ReachF adj start t (bfs_loop adj targets fuel queue visited) := by
  intro fuel
  induction fuel with
  | zero =>
    intro queue visited _ hge
    rw [bfs_loop] at hge
    omega
  | succ fuel ih =>
    intro queue visited hinv hge
    cases queue with
    | nil =>
      rw [bfs_loop] at hge
      omega
    | cons p rest =>
      obtain ⟨c, d⟩ := p
      rcases hpn : processNeighbors targets d (adjGet adj c) rest visited
        with ⟨_ | a, q', v'⟩
      · have hrw : bfs_loop adj targets (fuel + 1) ((c, d) :: rest) visited
            = bfs_loop adj targets fuel q' v' := by
          rw [bfs_loop, hpn]
        rw [hrw] at hge ⊢
        refine ih q' v' ?_ hge
        obtain ⟨news, _, hmem, _, hq'⟩ := pn_none_shape targets d _ _ _ _ _ hpn
        intro p hp
        rw [hq'] at hp
        rcases List.mem_append.mp hp with hp1 | hp2
        · exact hinv p (List.mem_cons_of_mem _ hp1)
        · obtain ⟨x, hx, rfl⟩ := List.mem_map.mp hp2
          exact reachF_snoc (hinv (c, d) (List.mem_cons_self _ _)) x (hmem x hx).1
      · have hrw : bfs_loop adj targets (fuel + 1) ((c, d) :: rest) visited = a := by
          rw [bfs_loop, hpn]
        obtain ⟨ha, x, hx, hxt⟩ := pn_some_shape targets d _ _ _ _ _ _ hpn
        rw [hrw, ha]
        exact ⟨x, hxt, reachF_snoc (hinv (c, d) (List.mem_cons_self _ _)) x hx⟩

/-! ### A potential function bounding the number of loop iterations -/

/-- All names occurring in adjacency value lists; every node the BFS
ever enqueues after the start node comes from here. -/
def adj_values (adj : List (String × List String)) : List String :=
  (adj.map Prod.snd).flatten

theorem adjGet_sub_values (adj : List (String × List String)) (k : String) :
    ∀ x ∈ adjGet adj k, x ∈ adj_values adj := by
  induction adj with
  | nil => intro x hx; cases hx
  | cons p rest ih =>
    obtain ⟨k', vs⟩ := p
    intro x hx
    rw [adjGet] at hx
    by_cases hk : (k' == k) = true
    · rw [if_pos hk] at hx
      exact List.mem_flatten.mpr ⟨vs, by simp, hx⟩
    · rw [if_neg hk] at hx
      have := ih x hx
      rw [adj_values] at this ⊢
      simp only [List.map_cons, List.flatten_cons]
      exact List.mem_append_right _ this

/-- Number of adjacency-value names not yet visited. -/
def unseen_count (adj : List (String × List String)) (visited : List String) : Nat :=
  ((adj_values adj).toFinset \ visited.toFinset).card

theorem unseen_count_drop (adj : List (String × List String))
    (visited news : List String) (hnd : news.Nodup)
    (hmem : ∀ x ∈ news, x ∈ adj_values adj ∧ x ∉ visited) :
    unseen_count adj (news.reverse ++ visited) + news.length
      = unseen_count adj visited := by
  unfold unseen_count
  rw [List.toFinset_append, List.toFinset_reverse]
  have hsd : (adj_values adj).toFinset \ (news.toFinset ∪ visited.toFinset)
      = ((adj_values adj).toFinset \ visited.toFinset) \ news.toFinset := by
    ext x; simp; tauto
  have hsub : news.toFinset ⊆ (adj_values adj).toFinset \ visited.toFinset := by
    intro x hx
    have hx' := List.mem_toFinset.mp hx
    exact Finset.mem_sdiff.mpr ⟨List.mem_toFinset.mpr (hmem x hx').1,
      fun hc => (hmem x hx').2 (List.mem_toFinset.mp hc)⟩
  rw [hsd, Finset.card_sdiff hsub, List.toFinset_card_of_nodup hnd]
  have := Finset.card_le_card hsub
  rw [List.toFinset_card_of_nodup hnd] at this
  omega

theorem pairwise_le_const (l : List String) (x : Nat) :
    ((l.map (fun n => (n, x))).map Prod.snd).Pairwise (· ≤ ·) := by
  induction l with
  | nil => simp
  | cons n rest ih =>
    simp only [List.map_cons, List.pairwise_cons]
    exact ⟨fun b hb => by
      obtain ⟨p, hp, rfl⟩ := List.mem_map.mp hb
      obtain ⟨q, hq, rfl⟩ := List.mem_map.mp hp
      exact le_refl _, ih⟩

/-! ### The cut argument: a walk from a visited node into the target
set always crosses the queue -/

theorem bfs_walk (adj : List (String × List String)) (targets : List String)
    (queue : List (String × Nat)) (visited : List String) (dmax : Nat)
    (hvisT : ∀ v ∈ visited, v ∉ targets)
    (hexp : ∀ v ∈ visited,
      (∃ k, (v, k) ∈ queue) ∨ ∀ w ∈ adjGet adj v, w ∈ visited)
    (hqd : ∀ p ∈ queue, p.2 ≤ dmax) :
    ∀ (m : Nat) (x t : String), ReachF adj x t m → x ∈ visited → t ∈ targets →
      ∃ v k m', (v, k) ∈ queue ∧ ReachF adj v t m' ∧ 1 ≤ m' ∧ m' ≤ m ∧ k ≤ dmax := by
  intro m
  induction m using Nat.strong_induction_on with
  | _ m ihm =>
    intro x t hreach hx ht
    cases m with
    | zero =>
      have hxteq := reachF_zero hreach
      subst hxteq
      exact absurd ht (hvisT x hx)
    | succ n =>
      rcases hexp x hx with ⟨k, hk⟩ | hexpanded
      · exact ⟨x, k, n + 1, hk, hreach, Nat.succ_le_succ (Nat.zero_le n),
          le_refl _, hqd (x, k) hk⟩
      · obtain ⟨b, hb, hreach'⟩ := reachF_succ hreach
        obtain ⟨v, k, m', hvk, hre, h1, hle, hkd⟩ :=
          ihm n (Nat.lt_succ_self n) b t hreach' (hexpanded b hb) ht
        exact ⟨v, k, m', hvk, hre, h1, Nat.le_succ_of_le hle, hkd⟩

/-! ### Completeness: the BFS answer is bounded by every walk length -/

theorem bfs_loop_complete (adj : List (String × List String)) (targets : List String)
    (t : String) (ht : t ∈ targets) :
    ∀ (fuel : Nat) (queue : List (String × Nat)) (visited : List String) (L : Nat),
      (∀ v ∈ visited, v ∉ targets) →
      (∀ v ∈ visited,
        (∃ k, (v, k) ∈ queue) ∨ ∀ w ∈ adjGet adj v, w ∈ visited) →
      ((queue.map Prod.snd).Pairwise (· ≤ ·)) →
      (∀ p ∈ queue, ∀ q ∈ queue, p.2 ≤ q.2 + 1) →
      (queue.length + 2 * unseen_count adj visited < fuel) →
      (∃ p ∈ queue, ∃ m, ReachF adj p.1 t m ∧ 1 ≤ m ∧ p.2 + m ≤ L) →
      1 ≤ bfs_loop adj targets fuel queue visited ∧
        bfs_loop adj targets fuel queue visited ≤ L := by
  intro fuel
  induction fuel with
  | zero =>
    intro queue visited L _ _ _ _ hfuel _
    omega
  | succ fuel ih =>
    intro queue visited L hvisT hexp hsort hwin hfuel hwit
    cases queue with
    | nil => obtain ⟨p, hp, _⟩ := hwit; cases hp
    | cons hd rest =>
      obtain ⟨c, d⟩ := hd
      have hsort2 : (d :: rest.map Prod.snd).Pairwise (· ≤ ·) := by
        rw [List.map_cons] at hsort
        exact hsort
      have hdle : ∀ p ∈ rest, d ≤ p.2 := by
        intro p hp
        exact (List.pairwise_cons.mp hsort2).1 p.2 (List.mem_map_of_mem Prod.snd hp)
      rcases hpn : processNeighbors targets d (adjGet adj c) rest visited
        with ⟨_ | a, q', v'⟩
      · -- no target found among the head's neighbours: one more iteration
        have hrw : bfs_loop adj targets (fuel + 1) ((c, d) :: rest) visited
            = bfs_loop adj targets fuel q' v' := by
          rw [bfs_loop, hpn]
        rw [hrw]
        obtain ⟨news, hnd, hmem, hv', hq'⟩ := pn_none_shape targets d _ _ _ _ _ hpn
        have hrest_le : ∀ p ∈ rest, p.2 ≤ d + 1 := by
          intro p hp
          exact hwin p (List.mem_cons_of_mem _ hp) (c, d) (List.mem_cons_self _ _)
        have hq'snd : ∀ p ∈ q', p.2 ≤ d + 1 := by
          intro p hp
          rw [hq'] at hp
          rcases List.mem_append.mp hp with hp1 | hp2
          · exact hrest_le p hp1
          · obtain ⟨x, _, rfl⟩ := List.mem_map.mp hp2
            exact le_refl _
        have hvisT' : ∀ v ∈ v', v ∉ targets := by
          intro v hv
          rw [hv'] at hv
          rcases List.mem_append.mp hv with hv1 | hv2
          · exact (hmem v (List.mem_reverse.mp hv1)).2.1
          · exact hvisT v hv2
        have hexp' : ∀ v ∈ v',
            (∃ k, (v, k) ∈ q') ∨ ∀ w ∈ adjGet adj v, w ∈ v' := by
          intro v hv
          rw [hv'] at hv
          rcases List.mem_append.mp hv with hv1 | hv2
          · left
            refine ⟨d + 1, ?_⟩
            rw [hq']
            exact List.mem_append_right _
              (List.mem_map.mpr ⟨v, List.mem_reverse.mp hv1, rfl⟩)
          · rcases hexp v hv2 with ⟨k, hk⟩ | hexpd
            · rcases List.mem_cons.mp hk with heq | hk'
              · right
                have hvc : v = c := congrArg Prod.fst heq
                subst hvc
                exact fun w hw => pn_none_all_visited targets d _ _ _ _ _ hpn w hw
              · exact Or.inl ⟨k, by rw [hq']; exact List.mem_append_left _ hk'⟩
            · right
              intro w hw
              rw [hv']
              exact List.mem_append_right _ (hexpd w hw)
        have hsort' : (q'.map Prod.snd).Pairwise (· ≤ ·) := by
          rw [hq', List.map_append]
          rw [List.pairwise_append]
          refine ⟨(List.pairwise_cons.mp hsort2).2,
            pairwise_le_const news (d + 1), ?_⟩
          intro a ha b hb
          obtain ⟨p, hp, rfl⟩ := List.mem_map.mp ha
          obtain ⟨pb, hpb, rfl⟩ := List.mem_map.mp hb
          obtain ⟨x, _, rfl⟩ := List.mem_map.mp hpb
          exact hrest_le p hp
        have hwin' : ∀ p ∈ q', ∀ q ∈ q', p.2 ≤ q.2 + 1 := by
          intro p hp q hq
          rw [hq'] at hp hq
          rcases List.mem_append.mp hp with hp1 | hp2 <;>
            rcases List.mem_append.mp hq with hq1 | hq2
          · exact hwin p (List.mem_cons_of_mem _ hp1) q (List.mem_cons_of_mem _ hq1)
          · obtain ⟨x, _, rfl⟩ := List.mem_map.mp hq2
            exact Nat.le_succ_of_le (hrest_le p hp1)
          · obtain ⟨x, _, rfl⟩ := List.mem_map.mp hp2
            exact Nat.succ_le_succ (hdle q hq1)
          · obtain ⟨x, _, rfl⟩ := List.mem_map.mp hp2
            obtain ⟨y, _, rfl⟩ := List.mem_map.mp hq2
            exact Nat.le_succ _
        have hfuel' : q'.length + 2 * unseen_count adj v' < fuel := by
          have hdrop : unseen_count adj v' + news.length = unseen_count adj visited := by
            rw [hv']
            exact unseen_count_drop adj visited news hnd
              (fun x hx => ⟨adjGet_sub_values adj c x (hmem x hx).1, (hmem x hx).2.2⟩)
          have hlen : q'.length = rest.length + news.length := by
            rw [hq']; simp
          simp only [List.length_cons] at hfuel
          omega
        have hwit' : ∃ p ∈ q', ∃ m, ReachF adj p.1 t m ∧ 1 ≤ m ∧ p.2 + m ≤ L := by
          obtain ⟨p, hp, m, hre, hm1, hbound⟩ := hwit
          rcases List.mem_cons.mp hp with heq | hp'
          · -- the witness was the popped head: walk the path forward
            subst heq
            obtain ⟨n, rfl⟩ : ∃ n, m = n + 1 := ⟨m - 1, by omega⟩
            obtain ⟨b, hb, hre'⟩ := reachF_succ hre
            have hbv : b ∈ v' := pn_none_all_visited targets d _ _ _ _ _ hpn b hb
            obtain ⟨v, k, m', hvk, hre'', h1, hle, hkd⟩ :=
              bfs_walk adj targets q' v' (d + 1) hvisT' hexp' hq'snd n b t hre' hbv ht
            refine ⟨(v, k), hvk, m', hre'', h1, ?_⟩
            simp only at hbound ⊢
            omega
          · exact ⟨p, by rw [hq']; exact List.mem_append_left _ hp', m, hre, hm1, hbound⟩
        exact ih q' v' L hvisT' hexp' hsort' hwin' hfuel' hwit'
      · -- a target was found: the answer is d + 1
        have hrw : bfs_loop adj targets (fuel + 1) ((c, d) :: rest) visited = a := by
          rw [bfs_loop, hpn]
        obtain ⟨ha, _⟩ := pn_some_shape targets d _ _ _ _ _ _ hpn
        rw [hrw, ha]
        obtain ⟨p, hp, m, _, hm1, hbound⟩ := hwit
        rcases List.mem_cons.mp hp with heq | hp'
        · subst heq
          simp only at hbound
          omega
        · have := hdle p hp'
          omega

/-! ### BFS correctness at the top level -/

theorem unseen_le_adj_size (adj : List (String × List String)) (visited : List String) :
    unseen_count adj visited ≤ adj_size adj := by
  unfold unseen_count
  have h1 : ((adj_values adj).toFinset \ visited.toFinset).card
      ≤ (adj_values adj).toFinset.card :=
    Finset.card_le_card Finset.sdiff_subset
  have h2 : (adj_values adj).toFinset.card ≤ (adj_values adj).length :=
    List.toFinset_card_le _
  have h3 : (adj_values adj).length = adj_size adj := by
    simp only [adj_values, adj_size, List.length_flatten, List.map_map]
    rfl
  omega

/-- The BFS of the script computes the least walk length from `start`
into the target set whenever one exists. -/
theorem bfs_correct (adj : List (String × List String)) (start : String)
    (targets : List String) (hstart : start ∉ targets) (dstar : Nat)
    (hsd : ShortestToSet adj start targets dstar) :
    bfs_shortest_path adj start targets = dstar := by
  obtain ⟨⟨t, ht, hreach⟩, hmin⟩ := hsd
  have hd1 : 1 ≤ dstar := by
    rcases Nat.eq_zero_or_pos dstar with h0 | h1
    · exfalso
      rw [h0] at hreach
      have heq := reachF_zero hreach
      subst heq
      exact hstart ht
    · exact h1
  have hcontains : targets.contains start = false := by
    cases hc : targets.contains start
    · rfl
    · exact absurd ((contains_iff _ _).mp hc) hstart
  rw [bfs_shortest_path]
  simp only [hcontains, Bool.false_eq_true, if_false]
  have hfuel : ([((start : String), (0 : Nat))].length
      + 2 * unseen_count adj [start] < 2 * adj_size adj + 2) := by
    have := unseen_le_adj_size adj [start]
    simp only [List.length_cons, List.length_nil]
    omega
  have hcomp := bfs_loop_complete adj targets t ht (2 * adj_size adj + 2)
    [(start, 0)] [start] dstar
    (fun v hv => by
      rcases List.mem_cons.mp hv with rfl | h
      · exact hstart
      · cases h)
    (fun v hv => by
      rcases List.mem_cons.mp hv with rfl | h
      · exact Or.inl ⟨0, List.mem_cons_self _ _⟩
      · cases h)
    (by simp)
    (fun p hp q hq => by
      rcases List.mem_cons.mp hp with rfl | h
      · simp
      · cases h)
    hfuel
    ⟨(start, 0), List.mem_cons_self _ _, dstar, hreach, hd1, by omega⟩
  have hsound := bfs_loop_sound adj targets start (2 * adj_size adj + 2)
    [(start, 0)] [start]
    (fun p hp => by
      rcases List.mem_cons.mp hp with rfl | h
      · exact ReachF.refl start
      · cases h)
    hcomp.1
  obtain ⟨t', ht', hre'⟩ := hsound
  have := hmin t' _ ht' hre'
  omega

/-- When no leaf is reachable at all, the BFS returns 0. -/
theorem bfs_unreachable (adj : List (String × List String)) (start : String)
    (targets : List String) (hstart : start ∉ targets)
    (hno : ∀ t n, t ∈ targets → ¬ ReachF adj start t n) :
    bfs_shortest_path adj start targets = 0 := by
  have hcontains : targets.contains start = false := by
    cases hc : targets.contains start
    · rfl
    · exact absurd ((contains_iff _ _).mp hc) hstart
  rw [bfs_shortest_path]
  simp only [hcontains, Bool.false_eq_true, if_false]
  by_contra hne
  have h1 : 1 ≤ bfs_loop adj targets (2 * adj_size adj + 2) [(start, 0)] [start] :=
    Nat.pos_of_ne_zero hne
  obtain ⟨t, ht, hreach⟩ := bfs_loop_sound adj targets start (2 * adj_size adj + 2)
    [(start, 0)] [start]
    (fun p hp => by
      rcases List.mem_cons.mp hp with rfl | h
      · exact ReachF.refl start
      · cases h)
    h1
  exact hno t _ ht hreach

/-! ### Folded maximum -/

theorem foldl_max_acc_le (h : String → Nat) :
    ∀ (l : List String) (acc : Nat), acc ≤ l.foldl (fun a s => max a (h s)) acc := by
  intro l
  induction l with
  | nil => intro acc; exact le_refl _
  | cons x rest ih =>
    intro acc
    exact le_trans (Nat.le_max_left acc (h x)) (ih (max acc (h x)))

theorem foldl_max_le (h : String → Nat) (D : Nat) :
    ∀ (l : List String) (acc : Nat), acc ≤ D → (∀ s ∈ l, h s ≤ D) →
      l.foldl (fun a s => max a (h s)) acc ≤ D := by
  intro l
  induction l with
  | nil => intro acc hacc _; exact hacc
  | cons x rest ih =>
    intro acc hacc hsle
    exact ih (max acc (h x))
      (Nat.max_le.mpr ⟨hacc, hsle x (List.mem_cons_self _ _)⟩)
      (fun s hs => hsle s (List.mem_cons_of_mem _ hs))

theorem le_foldl_max (h : String → Nat) :
    ∀ (l : List String) (acc : Nat) (s : String), s ∈ l →
      h s ≤ l.foldl (fun a s => max a (h s)) acc := by
  intro l
  induction l with
  | nil => intro acc s hs; cases hs
  | cons x rest ih =>
    intro acc s hs
    rcases List.mem_cons.mp hs with rfl | hs'
    · exact le_trans (Nat.le_max_right acc (h s)) (foldl_max_acc_le h rest _)
    · exact ih _ s hs'

theorem spines_not_leafs (clab : ClabData) :
    ∀ s ∈ topology_spines clab, s ∉ topology_leafs clab := by
  intro s hs hcon
  have h1 := (List.mem_filter.mp hs).2
  have h2 := (List.mem_filter.mp hcon).2
  rw [beq_iff_eq] at h1 h2
  rw [h1] at h2
  exact absurd h2 (by decide)

/-! ### Claim C2: the eBGP multihop is the spine-to-leaf depth plus one -/

/-- C2: with at least one spine and one leaf, and `D` the maximum over
the spines of the shortest hop count to any leaf, the depth computation
returns `D + 1` and that value is the `ebgp_multihop` of every
`EVPN_OVERLAY` peer group it emits; with no spine or no leaf it returns
the default 2 without failing; on two spines and two leaves linked by 4
links it returns 2. -/
theorem c2_ebgp_multihop :
    (∀ (clab : ClabData) (sd : String → Nat) (D : Nat),
      topology_spines clab ≠ [] → topology_leafs clab ≠ [] →
      (∀ s ∈ topology_spines clab,
        ShortestToSet (build_adjacency clab.links) s (topology_leafs clab) (sd s)) →
      (∀ s ∈ topology_spines clab, sd s ≤ D) →
      (∃ s ∈ topology_spines clab, sd s = D) →
      calculate_topology_depth clab = D + 1 ∧
      (∀ (device_name : String) (pg : PeerGroup),
        pg ∈ (generate_spine_config_context device_name clab).bgp.peer_groups →
        pg.name = "EVPN_OVERLAY" → pg.ebgp_multihop = some (D + 1)) ∧
      (∀ (device_name : String) (pg : PeerGroup),
        pg ∈ (generate_leaf_config_context device_name clab).bgp.peer_groups →
        pg.name = "EVPN_OVERLAY" → pg.ebgp_multihop = some (D + 1))) ∧
    (∀ clab : ClabData, topology_spines clab = [] ∨ topology_leafs clab = [] →
      calculate_topology_depth clab = 2) ∧
    calculate_topology_depth example_topology = 2 := by
  refine ⟨?_, ?_, by decide⟩
  · intro clab sd D hs hl hsd hle hD
    have hbfs : ∀ s ∈ topology_spines clab,
        bfs_shortest_path (build_adjacency clab.links) s (topology_leafs clab) = sd s :=
      fun s hs' => bfs_correct _ s _ (spines_not_leafs clab s hs') (sd s) (hsd s hs')
    have hsie : (topology_spines clab).isEmpty = false := by
      cases h : (topology_spines clab).isEmpty
      · rfl
      · exact absurd (List.isEmpty_iff.mp h) hs
    have hlie : (topology_leafs clab).isEmpty = false := by
      cases h : (topology_leafs clab).isEmpty
      · rfl
      · exact absurd (List.isEmpty_iff.mp h) hl
    have hcalc : calculate_topology_depth clab = D + 1 := by
      rw [calculate_topology_depth]
      simp only [hsie, hlie, Bool.or_self, Bool.false_eq_true, if_false]
      have hfold : (topology_spines clab).foldl
          (fun max_depth spine => max max_depth
            (bfs_shortest_path (build_adjacency clab.links) spine (topology_leafs clab))) 0
          = D := by
        apply le_antisymm
        · exact foldl_max_le _ D _ 0 (Nat.zero_le D)
            (fun s hs' => (hbfs s hs') ▸ hle s hs')
        · obtain ⟨s0, hs0, hs0D⟩ := hD
          have h2 := le_foldl_max
            (fun spine => bfs_shortest_path (build_adjacency clab.links) spine
              (topology_leafs clab)) (topology_spines clab) 0 s0 hs0
          have h3 : bfs_shortest_path (build_adjacency clab.links) s0
              (topology_leafs clab) = D := (hbfs s0 hs0).trans hs0D
          exact le_of_eq_of_le h3.symm h2
      rw [hfold]
    refine ⟨hcalc, ?_, ?_⟩
    · intro device_name pg hpg hname
      simp only [generate_spine_config_context, List.mem_cons, List.not_mem_nil,
        or_false] at hpg
      rcases hpg with rfl | rfl
      · exact absurd hname (by decide)
      · show some (calculate_topology_depth clab) = some (D + 1)
        rw [hcalc]
    · intro device_name pg hpg hname
      simp only [generate_leaf_config_context, List.mem_cons, List.not_mem_nil,
        or_false] at hpg
      rcases hpg with rfl | rfl
      · exact absurd hname (by decide)
      · show some (calculate_topology_depth clab) = some (D + 1)
        rw [hcalc]
  · intro clab h
    rw [calculate_topology_depth]
    rcases h with h | h <;> simp [h]

/-- Witness for C2 on the shared 2-spine / 2-leaf topology: each spine
is at shortest distance 1 from a leaf, and the theorem yields
multihop `1 + 1`. -/
theorem c2_witness : calculate_topology_depth example_topology = 1 + 1 := by
  have hsp : topology_spines example_topology = ["spine01", "spine02"] := by decide
  have hlf : topology_leafs example_topology = ["leaf01", "leaf02"] := by decide
  have hsd : ∀ s ∈ topology_spines example_topology,
      ShortestToSet (build_adjacency example_topology.links) s
        (topology_leafs example_topology) 1 := by
    intro s hs
    rw [hsp] at hs
    rw [hlf]
    simp only [List.mem_cons, List.not_mem_nil, or_false] at hs
    have hmin : ∀ (s' : String), s' ∈ (["spine01", "spine02"] : List String) →
        ∀ t n, t ∈ (["leaf01", "leaf02"] : List String) →
        ReachF (build_adjacency example_topology.links) s' t n → 1 ≤ n := by
      intro s' hs' t n ht hre
      cases n with
      | zero =>
        have heq := reachF_zero hre
        subst heq
        simp only [List.mem_cons, List.not_mem_nil, or_false] at hs' ht
        rcases hs' with rfl | rfl <;> rcases ht with heq2 | heq2 <;>
          exact absurd heq2 (by decide)
      | succ k => omega
    rcases hs with rfl | rfl
    · exact ⟨⟨"leaf01", by decide, ReachF.cons (by decide) (ReachF.refl _)⟩,
        fun t n => hmin _ (by decide) t n⟩
    · exact ⟨⟨"leaf01", by decide, ReachF.cons (by decide) (ReachF.refl _)⟩,
        fun t n => hmin _ (by decide) t n⟩
  exact (c2_ebgp_multihop.1 example_topology (fun _ => 1) 1
    (by decide) (by decide) hsd (fun s _ => le_refl 1)
    ⟨"spine01", by rw [hsp]; decide, rfl⟩).1

/-! ### Claim C10: spines and leaves present but mutually unreachable -/

theorem reachF_nil {a b : String} {n : Nat} (h : ReachF [] a b n) : a = b := by
  induction h with
  | refl _ => rfl
  | cons hb _ _ => exact absurd hb (by simp [adjGet])

/-- C10: when the topology has at least one spine and one leaf but no
spine reaches any leaf in the adjacency graph, the per-spine BFS
returns 0 for every spine and the depth computation returns
`0 + 1 = 1` — below the no-spine/no-leaf default of 2 — without
failing. -/
theorem c10_disconnected_depth (clab : ClabData)
    (hs : topology_spines clab ≠ []) (hl : topology_leafs clab ≠ [])
    (hno : ∀ s ∈ topology_spines clab, ∀ t ∈ topology_leafs clab,
      ∀ n, ¬ ReachF (build_adjacency clab.links) s t n) :
    (∀ s ∈ topology_spines clab,
      bfs_shortest_path (build_adjacency clab.links) s (topology_leafs clab) = 0) ∧
    calculate_topology_depth clab = 1 ∧ calculate_topology_depth clab < 2 := by
  have hbfs0 : ∀ s ∈ topology_spines clab,
      bfs_shortest_path (build_adjacency clab.links) s (topology_leafs clab) = 0 :=
    fun s hs' => bfs_unreachable _ s _ (spines_not_leafs clab s hs')
      (fun t n ht => hno s hs' t ht n)
  have hsie : (topology_spines clab).isEmpty = false := by
    cases h : (topology_spines clab).isEmpty
    · rfl
    · exact absurd (List.isEmpty_iff.mp h) hs
  have hlie : (topology_leafs clab).isEmpty = false := by
    cases h : (topology_leafs clab).isEmpty
    · rfl
    · exact absurd (List.isEmpty_iff.mp h) hl
  have hcalc : calculate_topology_depth clab = 1 := by
    rw [calculate_topology_depth]
    simp only [hsie, hlie, Bool.or_self, Bool.false_eq_true, if_false]
    have hfold : (topology_spines clab).foldl
        (fun max_depth spine => max max_depth
          (bfs_shortest_path (build_adjacency clab.links) spine (topology_leafs clab))) 0
        = 0 :=
      Nat.le_zero.mp (foldl_max_le _ 0 _ 0 (le_refl 0)
        (fun s hs' => le_of_eq (hbfs0 s hs')))
    rw [hfold]
  exact ⟨hbfs0, hcalc, by rw [hcalc]; omega⟩

/-- One spine, one leaf, no links at all. -/
def disconnected_topology : ClabData :=
  { nodes := ["spine01", "leaf01"], links := [] }

/-- Witness for C10 on a spine and a leaf with no links. -/
theorem c10_witness :
    bfs_shortest_path (build_adjacency disconnected_topology.links) "spine01"
        (topology_leafs disconnected_topology) = 0 ∧
    calculate_topology_depth disconnected_topology = 1 ∧
    calculate_topology_depth disconnected_topology < 2 := by
  have h := c10_disconnected_depth disconnected_topology (by decide) (by decide) ?_
  · exact ⟨h.1 "spine01" (by decide), h.2.1, h.2.2⟩
  intro s hs t ht n hre
  have hadj : build_adjacency disconnected_topology.links = [] := rfl
  rw [hadj] at hre
  have heq := reachF_nil hre
  subst heq
  have hsp : topology_spines disconnected_topology = ["spine01"] := by decide
  have hlf : topology_leafs disconnected_topology = ["leaf01"] := by decide
  rw [hsp] at hs
  rw [hlf] at ht
  simp only [List.mem_cons, List.not_mem_nil, or_false] at hs ht
  subst hs
  exact absurd ht (by decide)

end Frey
